import Mathlib

/-!
Shallow embedding of src/wordle.c (jw0z96/wordle-vis): a terminal audio
visualizer that reads fixed-size sample windows from an audio source,
runs a real-to-complex DFT (via the external FFTW library), samples a few
spectrum bins, smooths per-column amplitudes with a decaying max, and
renders a 6x5 grid of three palette levels.

Modelling conventions:
- Machine floating-point values are modelled as exact rationals.  The one
  floating-point special value the claims depend on, the negative infinity
  produced by log10 at argument 0, is modelled explicitly with WithBot.
- log10 on positive arguments is irrational, so its finite branch is kept
  abstract: a parameter lg : Rat -> Rat stands for the finite values of the
  C library log10.  No claim depends on those finite values.
- The FFTW transform is an external collaborator (not code of this
  repository); run-level definitions are parametric in it.
-/

/-- Source line 17: capture length in seconds. -/
def SECONDS : ℕ := 10

/-- Source line 18: source sample rate. -/
def SAMPLE_RATE : ℕ := 44100

/-- Source line 19: how many samples to read per-DFT. -/
def BUFSIZE : ℕ := 1024

/-- Source line 20: attenuation factor for vertical smoothing (0.9f). -/
def SMOOTHING : ℚ := 9/10

/-- Source line 23. -/
def WORDLE_COLUMNS : ℕ := 5

/-- Source line 24. -/
def WORDLE_ROWS : ℕ := 6

instance : NeZero WORDLE_COLUMNS := ⟨by decide⟩

instance : NeZero WORDLE_ROWS := ⟨by decide⟩

/-- Source line 31. -/
def DFT_SCALING : ℚ := 1/2

/-- Source line 32: (((BUFSIZE / 2) / WORDLE_COLUMNS) * (X + 0.5) * DFT_SCALING).
The inner division is C integer division; the rest is double arithmetic
(exact here: all values are dyadic). -/
def DFT_MIDPOINT (x : ℕ) : ℚ :=
  ((BUFSIZE / 2 / WORDLE_COLUMNS : ℕ) : ℚ) * ((x : ℚ) + 1/2) * DFT_SCALING

/-- Source lines 33-40: the frequency bin per column; the C cast of a
nonnegative double to uint32_t truncates, i.e. takes the floor. -/
def aui32FreqBins (i : Fin WORDLE_COLUMNS) : ℕ :=
  ⌊DFT_MIDPOINT (i : ℕ)⌋.toNat

/-- Source line 142: (SAMPLE_RATE * SECONDS) / BUFSIZE, C integer division. -/
def ui32NumReads : ℕ := SAMPLE_RATE * SECONDS / BUFSIZE

/-- Model of a C float/double value including the IEEE special values,
used to state totality of the REMAP bracket lookup (source line 62). -/
inductive FloatVal where
  | nan : FloatVal
  | pinf : FloatVal
  | ninf : FloatVal
  | fin : ℚ → FloatVal
  deriving DecidableEq

/-- IEEE semantics of the C operator < on float values: any comparison
with NaN is false; -inf is below and +inf above every finite value. -/
def fltLt : FloatVal → FloatVal → Bool
  | FloatVal.nan, _ => false
  | _, FloatVal.nan => false
  | FloatVal.pinf, _ => false
  | FloatVal.ninf, FloatVal.ninf => false
  | FloatVal.ninf, _ => true
  | FloatVal.fin _, FloatVal.pinf => true
  | FloatVal.fin _, FloatVal.ninf => false
  | FloatVal.fin a, FloatVal.fin b => decide (a < b)

/-- Source lines 54-59: the amplitude bracket thresholds. -/
def afAmplitudeBrackets : Fin 3 → ℚ
  | ⟨0, _⟩ => 0
  | ⟨1, _⟩ => 1/2
  | ⟨2, _⟩ => 1

/-- Source lines 47-51: the three-entry emoji palette. -/
def acPalette : Fin 3 → Char
  | ⟨0, _⟩ => '⬛'
  | ⟨1, _⟩ => '🟨'
  | ⟨2, _⟩ => '🟩'

/-- Source line 62: REMAP(X) over the full float domain:
(X < brackets[1]) ? 0 : (X < brackets[2]) ? 1 : 2. -/
def REMAPF (x : FloatVal) : ℕ :=
  if fltLt x (FloatVal.fin (afAmplitudeBrackets 1)) then 0
  else if fltLt x (FloatVal.fin (afAmplitudeBrackets 2)) then 1
  else 2

/-- Source line 62 restricted to finite values (the only values the frame
state takes in the runs considered here). -/
def REMAP (x : ℚ) : ℕ := REMAPF (FloatVal.fin x)

/-- Source line 69: row height attenuation (1 + row) / WORDLE_ROWS. -/
def fAttenuation (r : Fin WORDLE_ROWS) : ℚ :=
  ((r : ℕ) + 1 : ℚ) / (WORDLE_ROWS : ℚ)

/-- Source line 77: the palette index printed for one grid cell,
REMAP(fAttenuation * afAmplitudes[column]). -/
def printWordleCell (frame : Fin WORDLE_COLUMNS → ℚ) (r : Fin WORDLE_ROWS)
    (c : Fin WORDLE_COLUMNS) : ℕ :=
  REMAP (fAttenuation r * frame c)

/-- One window of BUFSIZE samples (source line 137). -/
def Window : Type := Fin BUFSIZE → ℚ

/-- The all-zero sample window. -/
def zeroWindow : Window := fun _ => 0

/-- Output of the real-to-complex DFT: real and imaginary parts per bin
(fftw_complex array, source line 128). -/
structure Spectrum where
  re : ℕ → ℚ
  im : ℕ → ℚ

/-- The all-zero spectrum (the DFT of the all-zero window). -/
def zeroSpectrum : Spectrum := ⟨fun _ => 0, fun _ => 0⟩

/-- C log10 on the nonnegative arguments arising from sums of squares:
log10(0) is IEEE negative infinity (modelled as ⊥); on a positive argument
it is a finite value, abstracted by the parameter lg. -/
def clog10 (lg : ℚ → ℚ) (x : ℚ) : WithBot ℚ :=
  if x ≤ 0 then ⊥ else ((lg x : ℚ) : WithBot ℚ)

/-- Source lines 167-174, exactly as the C expression evaluates.
sDFTSample has type fftw_complex*, and fftw_complex is double[2], so
*sDFTSample[0] is the REAL part of the entry at the mapped index and
*sDFTSample[1] is the REAL part of the NEXT entry (postfix [] binds
tighter than unary *).  The code therefore computes
log10(re[idx]^2 + re[idx+1]^2). -/
def binAmplitude (lg : ℚ → ℚ) (s : Spectrum) (col : Fin WORDLE_COLUMNS) :
    WithBot ℚ :=
  clog10 lg
    (s.re (aui32FreqBins col) * s.re (aui32FreqBins col) +
     s.re (aui32FreqBins col + 1) * s.re (aui32FreqBins col + 1))

/-- Modelled from the spec (for comparison with binAmplitude): "read the
complex value at the mapped index, compute squared-magnitude
(real^2 + imaginary^2), and apply a base-10 log". -/
def binAmplitudeSpec (lg : ℚ → ℚ) (s : Spectrum) (col : Fin WORDLE_COLUMNS) :
    WithBot ℚ :=
  clog10 lg
    (s.re (aui32FreqBins col) * s.re (aui32FreqBins col) +
     s.im (aui32FreqBins col) * s.im (aui32FreqBins col))

/-- A concrete spectrum separating binAmplitude from binAmplitudeSpec:
entry 25 (the bin mapped to column 0) has real part 0 and imaginary part 1,
and every other entry is zero. -/
def spectrumC1 : Spectrum := ⟨fun _ => 0, fun n => if n = 25 then 1 else 0⟩

/-- C fmax with a possibly -inf second argument (source line 178):
fmax(x, -inf) = x, and on finite arguments the ordinary max. -/
def fmaxC (x : ℚ) (a : WithBot ℚ) : ℚ :=
  WithBot.recBotCoe x (fun y => max x y) a

/-- Source lines 163-182: the per-cycle update of one column of the frame
state: fmax(afAmplitudes[col] * SMOOTHING, fAmplitude). -/
def cycleFrame (lg : ℚ → ℚ) (frame : Fin WORDLE_COLUMNS → ℚ) (s : Spectrum)
    (col : Fin WORDLE_COLUMNS) : ℚ :=
  fmaxC (frame col * SMOOTHING) (binAmplitude lg s col)

/-- The smoothing recurrence in isolation, fed a constant finite new
magnitude m each cycle (the update of source lines 178-181). -/
def smoothIter (m x : ℚ) : ℕ → ℚ
  | 0 => x
  | n + 1 => fmaxC (smoothIter m x n * SMOOTHING) ((m : ℚ) : WithBot ℚ)

/-- Result of one pa_simple_read call (source line 146): a full window or
a failure signal. -/
inductive ReadResult where
  | ok : Window → ReadResult
  | fail : ReadResult

/-- Discriminator for the failure case. -/
def ReadResult.isFail : ReadResult → Bool
  | ReadResult.fail => true
  | ReadResult.ok _ => false

/-- The loop-carried state of main: the persistent frame state
(sWordleFrame, source line 140), the number of completed renders, and
whether a read failure has broken the loop. -/
structure LoopState where
  frame : Fin WORDLE_COLUMNS → ℚ
  renders : ℕ
  failed : Bool

/-- State before the first iteration: sWordleFrame = {} (all zeros),
no renders, no failure. -/
def initState : LoopState := ⟨fun _ => 0, 0, false⟩

/-- One iteration of the capture loop (source lines 143-189): once a read
has failed the loop has been broken, so the state no longer changes;
otherwise a failed read sets the flag (break), and a successful read runs
the pipeline and renders. -/
def stepState (lg : ℚ → ℚ) (t : Window → Spectrum) (reads : ℕ → ReadResult)
    (i : ℕ) (s : LoopState) : LoopState :=
  if s.failed then s
  else
    match reads i with
    | ReadResult.fail => ⟨s.frame, s.renders, true⟩
    | ReadResult.ok w => ⟨cycleFrame lg s.frame (t w), s.renders + 1, false⟩

/-- The loop state after n iterations of the capture loop, parametric in
the external transform t and the sequence of read results. -/
def runState (lg : ℚ → ℚ) (t : Window → Spectrum) (reads : ℕ → ReadResult) :
    ℕ → LoopState
  | 0 => initState
  | n + 1 => stepState lg t reads n (runState lg t reads n)

/-- The three resources acquired during initialization. -/
inductive Resource where
  | stream : Resource
  | fftwBuffer : Resource
  | fftwPlan : Resource
  deriving DecidableEq

/-- Acquisition order: pa_simple_new (line 108), fftw_alloc_complex
(line 128), fftw_plan_dft_r2c_1d (line 129). -/
def acquisitionOrder : List Resource :=
  [Resource.stream, Resource.fftwBuffer, Resource.fftwPlan]

/-- Observable outcome of a run of main after successful initialization. -/
structure MainOutcome where
  renders : ℕ
  reportedReadError : Bool
  released : List Resource
  exitCode : ℕ

/-- Source lines 142-196: run the loop for ui32NumReads iterations, then
release pa_simple_free (line 191), fftw_free (line 193),
fftw_destroy_plan (line 194) — in that textual order on every exit path
out of the loop — and return 0 (line 196). -/
def mainRun (lg : ℚ → ℚ) (t : Window → Spectrum) (reads : ℕ → ReadResult) :
    MainOutcome :=
  ⟨(runState lg t reads ui32NumReads).renders,
   (runState lg t reads ui32NumReads).failed,
   [Resource.stream, Resource.fftwBuffer, Resource.fftwPlan],
   0⟩

/-- A read sequence in which every read succeeds with the all-zero window. -/
def zeroReads : ℕ → ReadResult := fun _ => ReadResult.ok zeroWindow

/-- A read sequence failing on cycle 3 (0-indexed read 2), succeeding
with the all-zero window before that. -/
def readsFail3 : ℕ → ReadResult :=
  fun i => if i < 2 then ReadResult.ok zeroWindow else ReadResult.fail

/-- A concrete instantiation of the abstract finite log10 branch. -/
def lgZero : ℚ → ℚ := fun _ => 0

/-- A concrete transform mapping every window to the zero spectrum
(agrees with the DFT on the all-zero window). -/
def tZero : Window → Spectrum := fun _ => zeroSpectrum

/-! Helper lemmas shared by several developments below. -/

theorem afAmplitudeBrackets_one : afAmplitudeBrackets 1 = 1/2 := rfl

theorem afAmplitudeBrackets_two : afAmplitudeBrackets 2 = 1 := rfl

/-- REMAP on a finite value is the two-threshold bracket map. -/
theorem REMAP_eq (x : ℚ) :
    REMAP x = if x < 1/2 then 0 else if x < 1 then 1 else 2 := by
  simp only [REMAP, REMAPF, fltLt, afAmplitudeBrackets, decide_eq_true_eq]

/-- REMAP is monotone on finite amplitudes. -/
theorem REMAP_mono {x y : ℚ} (h : x ≤ y) : REMAP x ≤ REMAP y := by
  rw [REMAP_eq, REMAP_eq]
  split_ifs <;> first | omega | (exfalso; linarith)

/-- The C fmax seen inside WithBot: it is the lattice max, with -inf
absorbed. -/
theorem fmaxC_eq_max (x : ℚ) (a : WithBot ℚ) :
    ((fmaxC x a : ℚ) : WithBot ℚ) = max ((x : ℚ) : WithBot ℚ) a := by
  induction a using WithBot.recBotCoe with
  | bot => simp [fmaxC]
  | coe y => simp [fmaxC, WithBot.coe_max]

/-- Claim C5: each cycle, for every column, the frame state is updated by
exactly frame[col] = max(frame[col] * decay, newMagnitude[col]) (an
extended-real max absorbing a -inf magnitude), with decay the fixed
constant SMOOTHING strictly between 0 and 1, and the new value is fully
determined by this formula. -/
theorem claim_c5_smoothing_update (lg : ℚ → ℚ) (frame : Fin WORDLE_COLUMNS → ℚ)
    (s : Spectrum) (col : Fin WORDLE_COLUMNS) :
    ((cycleFrame lg frame s col : ℚ) : WithBot ℚ) =
      max ((frame col * SMOOTHING : ℚ) : WithBot ℚ) (binAmplitude lg s col) ∧
    0 < SMOOTHING ∧ SMOOTHING < 1 := by
  refine ⟨fmaxC_eq_max _ _, ?_, ?_⟩ <;> norm_num [SMOOTHING]

/-- Claim C6: every entry of the precomputed frequency bin map is a valid
spectral index, strictly below BUFSIZE / 2 = 512 (nonnegativity holds by
the entries being naturals). -/
theorem claim_c6_bins_in_range :
    ∀ i : Fin WORDLE_COLUMNS, aui32FreqBins i < BUFSIZE / 2 := by
  intro i
  have h5 : (i : ℕ) ≤ 4 := by
    have := i.isLt
    simp only [WORDLE_COLUMNS] at this
    omega
  have hi : ((i : ℕ) : ℚ) ≤ 4 := by exact_mod_cast h5
  have hc : ((BUFSIZE / 2 / WORDLE_COLUMNS : ℕ) : ℚ) = 102 := by
    norm_num [BUFSIZE, WORDLE_COLUMNS]
  have hq : DFT_MIDPOINT (i : ℕ) < 512 := by
    rw [DFT_MIDPOINT, hc, DFT_SCALING]
    linarith
  have hf : ⌊DFT_MIDPOINT (i : ℕ)⌋ < 512 := Int.floor_lt.mpr (by exact_mod_cast hq)
  simp only [aui32FreqBins, BUFSIZE]
  omega

/-- Claim C8: for a fixed column amplitude a at or above 0, the quantized
palette index for row r (attenuation (r+1)/WORDLE_ROWS, then the
two-threshold bracket map) is monotonically non-decreasing in the row
index. -/
theorem claim_c8_row_monotone (frame : Fin WORDLE_COLUMNS → ℚ)
    (c : Fin WORDLE_COLUMNS) (r1 r2 : Fin WORDLE_ROWS)
    (ha : 0 ≤ frame c) (hr : r1 ≤ r2) :
    printWordleCell frame r1 c ≤ printWordleCell frame r2 c := by
  apply REMAP_mono
  apply mul_le_mul_of_nonneg_right _ ha
  unfold fAttenuation
  have h1 : ((r1 : ℕ) : ℚ) ≤ ((r2 : ℕ) : ℚ) := by exact_mod_cast hr
  have h2 : (0 : ℚ) ≤ (WORDLE_ROWS : ℚ) := by norm_num [WORDLE_ROWS]
  exact div_le_div_of_nonneg_right (by linarith) h2

/-- Witness for claim C8 at amplitude 1, rows 0 and 5, column 0. -/
theorem claim_c8_witness :
    (0 ≤ (fun _ : Fin WORDLE_COLUMNS => (1 : ℚ)) (0 : Fin WORDLE_COLUMNS)) ∧
    ((0 : Fin WORDLE_ROWS) ≤ (5 : Fin WORDLE_ROWS)) ∧
    printWordleCell (fun _ => 1) (0 : Fin WORDLE_ROWS) (0 : Fin WORDLE_COLUMNS) ≤
      printWordleCell (fun _ => 1) (5 : Fin WORDLE_ROWS) (0 : Fin WORDLE_COLUMNS) :=
  ⟨by simp, by decide, claim_c8_row_monotone (fun _ => 1) 0 0 5 (by simp) (by decide)⟩

/-- Claim C9 counterexample: with constant new magnitude m = -1 and state
-1 ≤ m, the next smoothing iterate is NOT m (it is -9/10), refuting the
claim for negative magnitudes. -/
theorem claim_c9_counterexample :
    ((-1 : ℚ) ≤ -1) ∧ smoothIter (-1) (-1) 1 ≠ -1 := by
  constructor
  · norm_num
  · show fmaxC ((-1 : ℚ) * SMOOTHING) _ ≠ -1
    show max ((-1 : ℚ) * SMOOTHING) (-1) ≠ -1
    norm_num [SMOOTHING, max_def]

/-- Claim C9 (amended to nonnegative magnitudes): for every constant new
magnitude m at or above 0, once the smoothing state is at most m it equals
m on the next cycle and remains m on all later cycles. -/
theorem claim_c9_amended (m x : ℚ) (k : ℕ) (hm : 0 ≤ m) (hx : x ≤ m) :
    smoothIter m x (k + 1) = m := by
  induction k with
  | zero =>
    show fmaxC (x * SMOOTHING) ((m : ℚ) : WithBot ℚ) = m
    show max (x * SMOOTHING) m = m
    rw [max_eq_right]
    simp only [SMOOTHING]
    linarith
  | succ n ih =>
    show fmaxC (smoothIter m x (n + 1) * SMOOTHING) ((m : ℚ) : WithBot ℚ) = m
    rw [ih]
    show max (m * SMOOTHING) m = m
    rw [max_eq_right]
    simp only [SMOOTHING]
    linarith

/-- Witness for the amended claim C9 at m = 1, initial state 0, one cycle. -/
theorem claim_c9_witness :
    (0 ≤ (1 : ℚ)) ∧ ((0 : ℚ) ≤ 1) ∧ smoothIter 1 0 (0 + 1) = 1 :=
  ⟨by simp, by simp, claim_c9_amended 1 0 0 (by simp) (by simp)⟩

/-- Claim C10: the REMAP bracket map is total with values in {0, 1, 2} for
every float input including the IEEE special values: NaN and +inf map to
2, -inf maps to 0, so the acPalette lookup (a 3-entry array) is always in
bounds. -/
theorem claim_c10_remap_total :
    (∀ x : FloatVal, REMAPF x < 3) ∧ REMAPF FloatVal.nan = 2 ∧
      REMAPF FloatVal.pinf = 2 ∧ REMAPF FloatVal.ninf = 0 := by
  refine ⟨?_, rfl, rfl, rfl⟩
  intro x
  unfold REMAPF
  split_ifs <;> norm_num

/-- The bin mapped to column 0 is spectrum index 25 (floor of 25.5). -/
theorem aui32FreqBins_zero : aui32FreqBins (0 : Fin WORDLE_COLUMNS) = 25 := by
  have h0 : ((0 : Fin WORDLE_COLUMNS) : ℕ) = 0 := rfl
  simp only [aui32FreqBins, h0]
  have h : DFT_MIDPOINT 0 = 51/2 := by
    norm_num [DFT_MIDPOINT, BUFSIZE, WORDLE_COLUMNS, DFT_SCALING]
  rw [h, show ⌊(51/2 : ℚ)⌋ = 25 from Int.floor_eq_iff.mpr (by norm_num)]
  rfl

/-- The bin sampler yields -inf (⊥) on the all-zero spectrum: the squared
sum it passes to log10 is exactly 0 and no floor is applied. -/
theorem binAmplitude_zero (lg : ℚ → ℚ) (col : Fin WORDLE_COLUMNS) :
    binAmplitude lg zeroSpectrum col = ⊥ := by
  simp [binAmplitude, zeroSpectrum, clog10]

/-- C fmax returns its first argument against -inf. -/
theorem fmaxC_bot (x : ℚ) : fmaxC x ⊥ = x := rfl

/-- One pipeline cycle on the all-zero spectrum keeps a zero frame zero. -/
theorem cycleFrame_zeroSpectrum (lg : ℚ → ℚ) :
    cycleFrame lg (fun _ => 0) zeroSpectrum = (fun _ => 0) := by
  funext col
  rw [cycleFrame, binAmplitude_zero, fmaxC_bot, zero_mul]

/-- Claim C1: the code does NOT read real and imaginary parts of the
mapped spectrum entry.  At a spectrum whose entry 25 is purely imaginary
(0 + 1i) and whose other entries vanish, the code (binAmplitude, which
evaluates *sDFTSample[0] and *sDFTSample[1] as the real parts of entries
25 and 26) produces log10(0) = -inf, while the claimed computation
(binAmplitudeSpec) produces log10(1) = 0. -/
theorem claim_c1_wrong_component :
    binAmplitude lgZero spectrumC1 (0 : Fin WORDLE_COLUMNS) = ⊥ ∧
    binAmplitudeSpec lgZero spectrumC1 (0 : Fin WORDLE_COLUMNS) = ((0 : ℚ) : WithBot ℚ) ∧
    binAmplitude lgZero spectrumC1 (0 : Fin WORDLE_COLUMNS) ≠
      binAmplitudeSpec lgZero spectrumC1 (0 : Fin WORDLE_COLUMNS) := by
  have h1 : binAmplitude lgZero spectrumC1 (0 : Fin WORDLE_COLUMNS) = ⊥ := by
    simp [binAmplitude, aui32FreqBins_zero, spectrumC1, clog10]
  have h2 : binAmplitudeSpec lgZero spectrumC1 (0 : Fin WORDLE_COLUMNS) =
      ((0 : ℚ) : WithBot ℚ) := by
    norm_num [binAmplitudeSpec, aui32FreqBins_zero, spectrumC1, clog10, lgZero]
  refine ⟨h1, h2, ?_⟩
  rw [h1, h2]
  simp

/-- Claim C2 counterexample: on the all-zero spectrum (the transform of an
all-zero window) the bin sampler produces negative infinity for column 0,
so no positive clamping floor is applied before the logarithm. -/
theorem claim_c2_counterexample :
    binAmplitude lgZero zeroSpectrum (0 : Fin WORDLE_COLUMNS) = ⊥ :=
  binAmplitude_zero lgZero 0

/-- Claim C2 (amended): no clamping floor is applied, so a zero squared
magnitude produces -inf from log10 for every column of the all-zero
spectrum; the zero-magnitude case is still never surfaced as an error: the
smoothing fmax absorbs -inf, leaving the frame at its decayed previous
value, and the run continues. -/
theorem claim_c2_amended (lg : ℚ → ℚ) (frame : Fin WORDLE_COLUMNS → ℚ)
    (col : Fin WORDLE_COLUMNS) :
    binAmplitude lg zeroSpectrum col = ⊥ ∧
    cycleFrame lg frame zeroSpectrum col = frame col * SMOOTHING := by
  refine ⟨binAmplitude_zero lg col, ?_⟩
  rw [cycleFrame, binAmplitude_zero, fmaxC_bot]

/-- While every read up to j succeeds, each iteration renders once and the
loop has not failed: after n ≤ j iterations there are exactly n renders. -/
theorem runState_ok (lg : ℚ → ℚ) (t : Window → Spectrum) (reads : ℕ → ReadResult)
    (j : ℕ) (hok : ∀ i, i < j → (reads i).isFail = false) :
    ∀ n, n ≤ j →
      (runState lg t reads n).renders = n ∧ (runState lg t reads n).failed = false := by
  intro n
  induction n with
  | zero => intro _; exact ⟨rfl, rfl⟩
  | succ k ih =>
    intro hn
    obtain ⟨hkr, hkf⟩ := ih (by omega)
    show (stepState lg t reads k (runState lg t reads k)).renders = k + 1 ∧
      (stepState lg t reads k (runState lg t reads k)).failed = false
    rw [stepState, hkf]
    cases h : reads k with
    | fail =>
      exfalso
      have := hok k (by omega)
      rw [h] at this
      simp [ReadResult.isFail] at this
    | ok w => simp [hkr]

/-- Once the loop has failed (broken), later iterations change nothing. -/
theorem runState_failed_absorb (lg : ℚ → ℚ) (t : Window → Spectrum)
    (reads : ℕ → ReadResult) (n : ℕ)
    (hf : (runState lg t reads n).failed = true) :
    ∀ m, runState lg t reads (n + m) = runState lg t reads n := by
  intro m
  induction m with
  | zero => rfl
  | succ k ih =>
    show stepState lg t reads (n + k) (runState lg t reads (n + k)) =
      runState lg t reads n
    rw [ih, stepState, hf]
    simp

/-- After j successful reads and a failing read j, the loop has rendered
exactly j times and carries the failure flag. -/
theorem runState_fail_step (lg : ℚ → ℚ) (t : Window → Spectrum)
    (reads : ℕ → ReadResult) (j : ℕ)
    (hok : ∀ i, i < j → (reads i).isFail = false)
    (hfail : (reads j).isFail = true) :
    (runState lg t reads (j + 1)).renders = j ∧
      (runState lg t reads (j + 1)).failed = true := by
  obtain ⟨hkr, hkf⟩ := runState_ok lg t reads j hok j le_rfl
  show (stepState lg t reads j (runState lg t reads j)).renders = j ∧
    (stepState lg t reads j (runState lg t reads j)).failed = true
  rw [stepState, hkf]
  cases h : reads j with
  | fail => simp [hkr]
  | ok w =>
    exfalso
    rw [h] at hfail
    simp [ReadResult.isFail] at hfail

/-- Monotone version of the absorption lemma. -/
theorem runState_failed_ge (lg : ℚ → ℚ) (t : Window → Spectrum)
    (reads : ℕ → ReadResult) (n m : ℕ) (hnm : n ≤ m)
    (hf : (runState lg t reads n).failed = true) :
    runState lg t reads m = runState lg t reads n := by
  obtain ⟨d, rfl⟩ := Nat.exists_eq_add_of_le hnm
  exact runState_failed_absorb lg t reads n hf d

set_option maxRecDepth 8192 in
/-- Claim C3 (amended: the process exits with status ZERO, not non-zero):
if the source fails on cycle k of the configured ui32NumReads total
cycles, the failure is reported, the loop ends early with exactly k - 1
successful renders, all three resources are released, and main returns 0. -/
theorem claim_c3_amended (lg : ℚ → ℚ) (t : Window → Spectrum)
    (reads : ℕ → ReadResult) (k : ℕ) (hk1 : 1 ≤ k) (hk2 : k ≤ ui32NumReads)
    (hok : ∀ i, i < k - 1 → (reads i).isFail = false)
    (hfail : (reads (k - 1)).isFail = true) :
    (mainRun lg t reads).renders = k - 1 ∧
    (mainRun lg t reads).reportedReadError = true ∧
    (mainRun lg t reads).released = acquisitionOrder ∧
    (mainRun lg t reads).exitCode = 0 := by
  obtain ⟨hr, hf⟩ := runState_fail_step lg t reads (k - 1) hok hfail
  have habs : runState lg t reads ui32NumReads = runState lg t reads (k - 1 + 1) :=
    runState_failed_ge lg t reads (k - 1 + 1) ui32NumReads (by omega) hf
  refine ⟨?_, ?_, rfl, rfl⟩
  · show (runState lg t reads ui32NumReads).renders = k - 1
    rw [habs]
    exact hr
  · show (runState lg t reads ui32NumReads).failed = true
    rw [habs]
    exact hf

/-- Witness for the amended claim C3: a run whose third read fails. -/
theorem claim_c3_witness :
    ((1 : ℕ) ≤ 3 ∧ 3 ≤ ui32NumReads ∧
      (∀ i, i < 3 - 1 → (readsFail3 i).isFail = false) ∧
      (readsFail3 (3 - 1)).isFail = true) ∧
    ((mainRun lgZero tZero readsFail3).renders = 3 - 1 ∧
     (mainRun lgZero tZero readsFail3).reportedReadError = true ∧
     (mainRun lgZero tZero readsFail3).released = acquisitionOrder ∧
     (mainRun lgZero tZero readsFail3).exitCode = 0) :=
  ⟨⟨by decide, by decide, by decide, by decide⟩,
   claim_c3_amended lgZero tZero readsFail3 3 (by decide) (by decide)
     (by decide) (by decide)⟩

/-- Claim C3 counterexample: on a run whose third read fails, main exits
with status 0, refuting the claimed non-zero exit status. -/
theorem claim_c3_counterexample :
    (readsFail3 (3 - 1)).isFail = true ∧
    (mainRun lgZero tZero readsFail3).exitCode = 0 :=
  ⟨rfl, rfl⟩

/-- Claim C4 (amended: the release order is the ACQUISITION order, not the
reverse): on every exit path out of the loop — the released list does not
depend on the read results — each of the three resources is released
exactly once, in the order stream, FFTW buffer, FFTW plan, which is the
order in which they were acquired. -/
theorem claim_c4_amended (lg : ℚ → ℚ) (t : Window → Spectrum)
    (reads : ℕ → ReadResult) :
    (mainRun lg t reads).released = acquisitionOrder ∧
    ∀ res : Resource, (mainRun lg t reads).released.count res = 1 := by
  refine ⟨rfl, ?_⟩
  intro res
  cases res <;> rfl

/-- Claim C4 counterexample: even on a run that fails immediately, the
release order is not the reverse of the acquisition order. -/
theorem claim_c4_counterexample :
    (mainRun lgZero tZero (fun _ => ReadResult.fail)).released ≠
      acquisitionOrder.reverse := by
  decide

/-- In the all-zero run the frame state stays identically zero and the
loop never fails. -/
theorem runState_zero_frame (lg : ℚ → ℚ) (t : Window → Spectrum)
    (ht : t zeroWindow = zeroSpectrum) :
    ∀ n, (runState lg t zeroReads n).frame = (fun _ => 0) ∧
      (runState lg t zeroReads n).failed = false := by
  intro n
  induction n with
  | zero => exact ⟨rfl, rfl⟩
  | succ k ih =>
    obtain ⟨hkF, hkf⟩ := ih
    show (stepState lg t zeroReads k (runState lg t zeroReads k)).frame = _ ∧
      (stepState lg t zeroReads k (runState lg t zeroReads k)).failed = false
    rw [stepState, hkf]
    show (⟨cycleFrame lg (runState lg t zeroReads k).frame (t zeroWindow),
      (runState lg t zeroReads k).renders + 1, false⟩ : LoopState).frame = _ ∧ _
    rw [hkF, ht]
    exact ⟨cycleFrame_zeroSpectrum lg, rfl⟩

/-- Claim C7: if every sample window of the run is all zeros (and the
transform, as the DFT, maps the zero window to the zero spectrum), then
every cell of every rendered grid, in every row and column of every cycle,
is palette level 0. -/
theorem claim_c7_all_zero_run (lg : ℚ → ℚ) (t : Window → Spectrum)
    (ht : t zeroWindow = zeroSpectrum) (n : ℕ) (r : Fin WORDLE_ROWS)
    (c : Fin WORDLE_COLUMNS) :
    printWordleCell ((runState lg t zeroReads n).frame) r c = 0 := by
  rw [(runState_zero_frame lg t ht n).1]
  show REMAP (fAttenuation r * 0) = 0
  rw [mul_zero, REMAP_eq]
  norm_num

/-- Witness for claim C7 at the first rendered cycle, row 0, column 0. -/
theorem claim_c7_witness :
    (tZero zeroWindow = zeroSpectrum) ∧
    printWordleCell ((runState lgZero tZero zeroReads 1).frame)
      (0 : Fin WORDLE_ROWS) (0 : Fin WORDLE_COLUMNS) = 0 :=
  ⟨rfl, claim_c7_all_zero_run lgZero tZero rfl 1 0 0⟩
